import Mathlib

/-!
Shallow embedding of the Amaron battery scraper's core
(`src/smartUrlScraper.js`, `src/config.js`, `src/csvExporter.js`):
the URL builder, the field extractor, the deduplicator, the dropdown
discoverer, and the CSV row formatter, together with theorems checking
the specification's claims about them.

Strings are modelled as lists of characters; JavaScript string methods
(`toLowerCase`, `trim`, `includes`, `split`, regex replaces over the ASCII
ranges the scraper uses) are embedded as explicit functions on `List Char`.
-/

set_option maxRecDepth 4000

namespace AmaronScraper

/-- Strings, modelled as lists of characters. -/
abbrev Str := List Char

/-- Turn a Lean string literal into the `Str` model. -/
def str (s : String) : Str := s.toList

/-! ### Character classes (ASCII ranges used by the scraper's regexes) -/

/-- JavaScript `\s` restricted to the ASCII whitespace the scraper meets. -/
def isWsC (c : Char) : Bool :=
  c.toNat = 32 || c.toNat = 9 || c.toNat = 10 || c.toNat = 13 ||
  c.toNat = 11 || c.toNat = 12

/-- Lower-case ASCII letter, the `[a-z]` range. -/
def isLowerC (c : Char) : Bool := 97 ≤ c.toNat && c.toNat ≤ 122

/-- Upper-case ASCII letter, the `[A-Z]` range. -/
def isUpperC (c : Char) : Bool := 65 ≤ c.toNat && c.toNat ≤ 90

/-- ASCII digit, the `[0-9]` range. -/
def isDigitC (c : Char) : Bool := 48 ≤ c.toNat && c.toNat ≤ 57

/-- The `[a-z0-9]` class. -/
def isAlnumL (c : Char) : Bool := isLowerC c || isDigitC c

/-- The `\w` class `[A-Za-z0-9_]`. -/
def isWordC (c : Char) : Bool :=
  isLowerC c || isUpperC c || isDigitC c || c = '_'

/-- `String.prototype.toLowerCase` on the ASCII range. -/
def lowerChar (c : Char) : Char :=
  if 65 ≤ c.toNat ∧ c.toNat ≤ 90 then Char.ofNat (c.toNat + 32) else c

/-- `String.prototype.toUpperCase` on the ASCII range. -/
def upperChar (c : Char) : Char :=
  if 97 ≤ c.toNat ∧ c.toNat ≤ 122 then Char.ofNat (c.toNat - 32) else c

/-- Lower-case a whole string. -/
def toLowerStr (s : Str) : Str := s.map lowerChar

/-- Upper-case a whole string. -/
def toUpperStr (s : Str) : Str := s.map upperChar

/-! ### JS string operations -/

/-- `String.prototype.trim` (ASCII whitespace model). -/
def trimStr (s : Str) : Str :=
  ((s.dropWhile isWsC).reverse.dropWhile isWsC).reverse

/-- Does `h` start with `n`? (used to implement `includes`). -/
def strStarts : Str → Str → Bool
  | _, [] => true
  | [], _ :: _ => false
  | c :: cs, d :: ds => c = d && strStarts cs ds

/-- `String.prototype.includes`: `n` occurs contiguously in `h`. -/
def strHas : Str → Str → Bool
  | [], n => strStarts [] n
  | c :: t, n => strStarts (c :: t) n || strHas t n

/-- `String.prototype.split(sep)` for a single-character separator. -/
def splitOnChar (sep : Char) : Str → List Str
  | [] => [[]]
  | c :: cs =>
    if c = sep then [] :: splitOnChar sep cs
    else
      match splitOnChar sep cs with
      | g :: gs => (c :: g) :: gs
      | [] => [[c]]

/-- One step of collapsing maximal runs of `p`-characters into the single
character `r`; the flag records whether we are inside a run
(embeds the JS regex replace `/p+/g → r`). -/
def collapseGo (p : Char → Bool) (r : Char) : Bool → Str → Str
  | _, [] => []
  | inRun, c :: cs =>
    if p c then
      if inRun then collapseGo p r true cs
      else r :: collapseGo p r true cs
    else c :: collapseGo p r false cs

/-- Replace every maximal run of `p`-characters by the single character `r`. -/
def collapseRuns (p : Char → Bool) (r : Char) (s : Str) : Str :=
  collapseGo p r false s

/-- Remove a single leading occurrence of `t` (the `^t` part of the JS
replace `/^t|t$/g`). -/
def dropLead (t : Char) : Str → Str
  | [] => []
  | c :: cs => if c = t then cs else c :: cs

/-- Remove a single trailing occurrence of `t` (the `t$` part of the JS
replace `/^t|t$/g`). -/
def dropTrail (t : Char) : Str → Str
  | [] => []
  | [c] => if c = t then [] else [c]
  | c :: cs => c :: dropTrail t cs

/-! ### URL builder (`generateBatteryPageUrl`, smartUrlScraper.js 235-249) -/

/-- The hyphen character class of the slug regexes. -/
def isHyphenC (c : Char) : Bool := c = '-'

/-- The underscore character class of the header-id regexes. -/
def isUnderC (c : Char) : Bool := c = '_'

/-- Characters kept by the slug strip step: `[a-z0-9\s-]`. -/
def keepUrlC (c : Char) : Bool := isAlnumL c || isWsC c || c = '-'

/-- The `urlify` slug transform of `generateBatteryPageUrl`: lowercase,
strip characters outside `[a-z0-9\s-]`, collapse whitespace runs to one
hyphen, collapse hyphen runs, trim one leading/trailing hyphen. -/
def urlify (s : Str) : Str :=
  dropTrail '-' (dropLead '-'
    (collapseRuns isHyphenC '-'
      (collapseRuns isWsC '-' ((toLowerStr s).filter keepUrlC))))

/-- `generateBatteryPageUrl`: the four slugs concatenated in input order
under the fixed base origin. -/
def generateBatteryPageUrl (vehicleType brand model fuelType : Str) : Str :=
  str "https://www.amaron.com/battery/" ++ urlify vehicleType ++ str "/" ++
    urlify brand ++ str "/" ++ urlify model ++ str "/" ++ urlify fuelType

/-! ### Slug well-formedness: the regex `^[a-z0-9]+(-[a-z0-9]+)*$` -/

/-- Recognizer state machine for `^[a-z0-9]+(-[a-z0-9]+)*$`; the flag says
whether at least one alphanumeric has been read since the start or the
last hyphen. -/
def slugRun : Bool → Str → Bool
  | st, [] => st
  | st, c :: cs =>
    if isAlnumL c then slugRun true cs
    else if c = '-' && st then slugRun false cs
    else false

/-- A string matches `^[a-z0-9]+(-[a-z0-9]+)*$`. -/
def slugOk (s : Str) : Bool := slugRun false s

/-! Auxiliary predicates used to reason about slug shapes. -/

/-- The head of the string, if any, is not a `p`-character. -/
def headNotP (p : Char → Bool) : Str → Bool
  | [] => true
  | c :: _ => !(p c)

/-- No two adjacent `p`-characters anywhere in the string. -/
def noAdj (p : Char → Bool) : Str → Bool
  | [] => true
  | c :: cs => (!(p c) || headNotP p cs) && noAdj p cs

/-- The last character, if any, is a lower-case alphanumeric. -/
def lastAlnum : Str → Bool
  | [] => true
  | [c] => isAlnumL c
  | _ :: c :: cs => lastAlnum (c :: cs)

/-- Lower-case alphanumeric or hyphen: the character set of slug bodies. -/
def alnumOrH (c : Char) : Bool := isAlnumL c || c = '-'

/-- Inputs of the URL-builder claim: letters, digits, spaces and hyphens. -/
def allowedUrlInput (c : Char) : Bool :=
  isLowerC c || isUpperC c || isDigitC c || c = ' ' || c = '-'

/-! ### Data model of the extractor -/

/-- A discovered dropdown combination (`{vehicleType, brand, model, fuelType}`,
all display-label strings). -/
structure Combination where
  vehicleType : Str
  brand : Str
  model : Str
  fuelType : Str
deriving DecidableEq

/-- The record built by `extractBatteryData` (the object literal at
smartUrlScraper.js 341-364, plus the `productDimensions` property the code
adds at line 444). -/
structure Battery where
  vehicleType : Str
  brand : Str
  model : Str
  fuelType : Str
  batteryBrand : Str
  series : Str
  itemCode : Str
  batteryModel : Str
  batteryTitle : Str
  dimensions : Str
  voltage : Str
  ampereHour : Str
  cca : Str
  totalWarranty : Str
  freeWarranty : Str
  proRataWarranty : Str
  terminalLayoutImageUrl : Str
  countryOfOrigin : Str
  basePrice : Str
  specialDiscount : Str
  totalPrice : Str
  rebate : Str
  productDimensions : Str
deriving DecidableEq

/-- One `<tr>` of the loaded page: its full `textContent`, and the text of
`td:last-child` / `td:nth-child(2)` when those cells exist. -/
structure TableRow where
  full : Str
  lastTd : Option Str
  secondTd : Option Str

/-- One `.proPriceInfo` element: its `className` string and `textContent`. -/
structure PriceEl where
  className : Str
  text : Str

/-- The DOM state `extractBatteryData` reads through `page.evaluate`:
`document.body.textContent`, the `<tr>` elements in document order, the
`table.comparisionTable td` cell texts, the `.proPriceInfo` elements, and
the `src` of the first terminal-layout image if one matches. -/
structure Page where
  bodyText : Str
  rows : List TableRow
  comparisionCells : List Str
  priceEls : List PriceEl
  terminalImg : Option Str

/-! ### Field extraction helpers (the helpers inside `page.evaluate`) -/

/-- `extractTableData`: for each candidate label in order, find the first
row whose text contains it case-insensitively and return the trimmed value
cell (`td:last-child`, else `td:nth-child(2)`); rows without a value cell
fall through to the next candidate; `''` if nothing matches. -/
def extractTableData (rows : List TableRow) : List Str → Str
  | [] => []
  | s :: rest =>
    match rows.find? (fun r => strHas (toLowerStr r.full) (toLowerStr s)) with
    | some r =>
      match r.lastTd.orElse (fun _ => r.secondTd) with
      | some cell => trimStr cell
      | none => extractTableData rows rest
    | none => extractTableData rows rest

/-- `extractPrice`: the first substring matching `/₹[\d,]+(?:\.\d{2})?/`,
or `''`. -/
def extractPrice : Str → Str
  | [] => []
  | c :: rest =>
    if c = '₹' then
      let digits := rest.takeWhile (fun d => isDigitC d || d = ',')
      if digits = [] then extractPrice rest
      else
        let rem := rest.drop digits.length
        match rem with
        | '.' :: d1 :: d2 :: _ =>
          if isDigitC d1 && isDigitC d2 then
            '₹' :: digits ++ ['.', d1, d2]
          else '₹' :: digits
        | _ => '₹' :: digits
    else extractPrice rest

/-- The battery-title cell test at smartUrlScraper.js 371: the text contains
`AMARON`, `Automotive Battery` and `(AAM-` (case-sensitive `includes`). -/
def titleMarkers (t : Str) : Bool :=
  strHas t (str "AMARON") && strHas t (str "Automotive Battery") &&
    strHas t (str "(AAM-")

/-- The title scan over `table.comparisionTable td` cells (lines 367-381):
in the first matching cell, the first nonempty trimmed line that itself
carries all three markers; scanning continues with later cells when a
matching cell has no such line. -/
def findTitle : List Str → Str
  | [] => []
  | cell :: rest =>
    let text := trimStr cell
    if titleMarkers text then
      match ((splitOnChar '\n' text).map trimStr).filter
          (fun l => l ≠ []) |>.find? titleMarkers with
      | some line => line
      | none => findTitle rest
    else findTitle rest

/-! ### Candidate label lists (verbatim from smartUrlScraper.js) -/

/-- Labels for `itemCode`. -/
def itemCodeLabels : List Str :=
  [str "Item Code", str "Model Code", str "Product Code", str "Battery Code",
   str "Part Number", str "SKU"]

/-- Labels for `series`. -/
def seriesLabels : List Str :=
  [str "Series", str "Battery Series", str "Product Series"]

/-- Labels for `batteryModel`. -/
def modelLabels : List Str :=
  [str "Model", str "Battery Model", str "Product Model"]

/-- Labels for `voltage`. -/
def voltageLabels : List Str :=
  [str "Voltage (V)", str "Voltage", str "Nominal Voltage"]

/-- Labels for `ampereHour`. -/
def ampereHourLabels : List Str :=
  [str "Ref. Amphere Hour (AH)", str "Ampere Hour", str "AH",
   str "Capacity (AH)", str "Amp Hour"]

/-- Labels for `cca`. -/
def ccaLabels : List Str :=
  [str "Cold Cranking Ability (CCA)", str "CCA", str "Cold Cranking Amps",
   str "Cranking Amps"]

/-- Labels for `dimensions`. -/
def dimensionsLabels : List Str :=
  [str "Product Dimensions (LxBxH) (mm)", str "Dimensions (L x W x H)",
   str "Dimensions", str "Size", str "Battery Dimensions"]

/-- Labels for the alternative `productDimensions` field. -/
def productDimensionsLabels : List Str :=
  [str "Product Dimensions", str "Overall Dimensions",
   str "External Dimensions"]

/-- Labels for `totalWarranty`. -/
def totalWarrantyLabels : List Str :=
  [str "Total Warranty (Months)", str "Total Warranty", str "Warranty Period"]

/-- Labels for `freeWarranty`. -/
def freeWarrantyLabels : List Str :=
  [str "Free Warranty (Months)", str "Free Warranty",
   str "Free Service Period"]

/-- Labels for `proRataWarranty`. -/
def proRataWarrantyLabels : List Str :=
  [str "Pro-rata Warranty (Months)", str "Pro-rata Warranty",
   str "Prorata Warranty"]

/-- Labels for `countryOfOrigin`. -/
def originLabels : List Str :=
  [str "Country of Origin", str "Made in", str "Origin"]

/-- Labels for `basePrice`. -/
def basePriceLabels : List Str :=
  [str "Base Price (Inclusive of GST)", str "Base Price",
   str "Original Price", str "MRP"]

/-- Labels for `specialDiscount`. -/
def specialDiscountLabels : List Str :=
  [str "Special Discount (Till 18th Sep)", str "Special Discount",
   str "Discount", str "Offer Price"]

/-- Labels for `totalPrice`. -/
def totalPriceLabels : List Str :=
  [str "Total Price (Inclusive of GST)", str "Total Price",
   str "Final Price", str "Selling Price"]

/-- Labels for `rebate`. -/
def rebateLabels : List Str :=
  [str "Rebate on Return of old battery", str "Rebate",
   str "Exchange Value", str "Old Battery Value"]

/-! ### The extractor (`extractBatteryData`, smartUrlScraper.js 290-621) -/

/-- The extraction gate (lines 332-338): the lower-cased body text must
contain one of the marker tokens `voltage`, `ampere`, `warranty`,
`battery`, `amaron`. -/
def hasBatteryMarkers (page : Page) : Bool :=
  let pageText := toLowerStr page.bodyText
  strHas pageText (str "voltage") || strHas pageText (str "ampere") ||
    strHas pageText (str "warranty") || strHas pageText (str "battery") ||
    strHas pageText (str "amaron")

/-- One step of the `.proPriceInfo` forEach (lines 509-525), updating the
`(basePrice, specialDiscount, totalPrice)` triple: `s-bold font-15` class
assigns the base price, `bold-font font-18` the total price, and a bare
`proPriceInfo` class without `rebate` in its text the special discount. -/
def priceFold (acc : Str × Str × Str) (el : PriceEl) : Str × Str × Str :=
  let text := trimStr el.text
  if strHas el.className (str "s-bold font-15") && strHas text (str "₹") then
    (extractPrice text, acc.2.1, acc.2.2)
  else if strHas el.className (str "bold-font font-18") &&
      strHas text (str "₹") then
    (acc.1, acc.2.1, extractPrice text)
  else if el.className = str "proPriceInfo" && strHas text (str "₹") &&
      !(strHas text (str "rebate")) then
    (acc.1, extractPrice text, acc.2.2)
  else acc

/-- The battery object as it stands after the pricing section (lines
341-534): title scan, all label-row extractions, the dimensions fallback,
and the `.proPriceInfo` price fallback, which the code enters whenever at
least one of the three price tiers is still empty. -/
def batteryAfterPrices (page : Page) (combo : Combination) : Battery :=
  let title := findTitle page.comparisionCells
  let itemCode := extractTableData page.rows itemCodeLabels
  let series := extractTableData page.rows seriesLabels
  let batteryModel := extractTableData page.rows modelLabels
  let voltage := extractTableData page.rows voltageLabels
  let ampereHour := extractTableData page.rows ampereHourLabels
  let cca := extractTableData page.rows ccaLabels
  let dims0 := extractTableData page.rows dimensionsLabels
  let productDims := extractTableData page.rows productDimensionsLabels
  let dims := if dims0 = [] && productDims ≠ [] then productDims else dims0
  let totalWarranty := extractTableData page.rows totalWarrantyLabels
  let freeWarranty := extractTableData page.rows freeWarrantyLabels
  let proRataWarranty := extractTableData page.rows proRataWarrantyLabels
  let origin := extractTableData page.rows originLabels
  let basePrice0 := extractTableData page.rows basePriceLabels
  let specialDiscount0 := extractTableData page.rows specialDiscountLabels
  let totalPrice0 := extractTableData page.rows totalPriceLabels
  let prices :=
    if basePrice0 = [] || specialDiscount0 = [] || totalPrice0 = [] then
      page.priceEls.foldl priceFold (basePrice0, specialDiscount0, totalPrice0)
    else (basePrice0, specialDiscount0, totalPrice0)
  let rebate := extractTableData page.rows rebateLabels
  { vehicleType := combo.vehicleType
    brand := combo.brand
    model := combo.model
    fuelType := combo.fuelType
    batteryBrand := str "Amaron"
    series := series
    itemCode := itemCode
    batteryModel := batteryModel
    batteryTitle := title
    dimensions := dims
    voltage := voltage
    ampereHour := ampereHour
    cca := cca
    totalWarranty := totalWarranty
    freeWarranty := freeWarranty
    proRataWarranty := proRataWarranty
    terminalLayoutImageUrl := []
    countryOfOrigin := origin
    basePrice := prices.1
    specialDiscount := prices.2.1
    totalPrice := prices.2.2
    rebate := rebate
    productDimensions := productDims }

/-- Terminal-layout image assignment (lines 545-556): only set when a
matching `img` exists. -/
def setTerminal (page : Page) (b : Battery) : Battery :=
  match page.terminalImg with
  | some src => { b with terminalLayoutImageUrl := src }
  | none => b

/-- `batteryModel` synthesis (lines 558-567): when empty, use
`"{voltage}V {ampereHour}AH"` if both ratings are present, else the title,
else the item code. -/
def synthModel (b : Battery) : Battery :=
  if b.batteryModel = [] then
    if b.voltage ≠ [] ∧ b.ampereHour ≠ [] then
      { b with batteryModel := b.voltage ++ str "V " ++ b.ampereHour ++ str "AH" }
    else if b.batteryTitle ≠ [] then { b with batteryModel := b.batteryTitle }
    else if b.itemCode ≠ [] then { b with batteryModel := b.itemCode }
    else b
  else b

/-- `batteryTitle` synthesis (lines 570-574): when empty and series, model
and item code are all present, rebuild the canonical title string. -/
def synthTitle (b : Battery) : Battery :=
  if b.batteryTitle = [] then
    if b.series ≠ [] ∧ b.batteryModel ≠ [] ∧ b.itemCode ≠ [] then
      let v := str "AMARON " ++ toUpperStr b.series ++
        str " Automotive Battery - " ++ b.batteryModel ++ str " (" ++
        b.itemCode ++ str ")"
      { b with batteryTitle := v }
    else b
  else b

/-- `cleanData` per-value cleaning (lines 577-595): trim, collapse
whitespace runs to a single space, trim, strip one leading `[-:]\s*` and
one trailing `\s*[-:]\s*`. -/
def cleanVal (s : Str) : Str :=
  let s2 := trimStr (collapseRuns isWsC ' ' (trimStr s))
  let s3 :=
    match s2 with
    | c :: t => if c = '-' ∨ c = ':' then t.dropWhile isWsC else s2
    | [] => []
  match s3.reverse with
  | c :: t => if c = '-' ∨ c = ':' then (t.dropWhile isWsC).reverse else s3
  | [] => []

/-- `cleanData` applied to every field of the battery object. -/
def cleanBattery (b : Battery) : Battery :=
  { vehicleType := cleanVal b.vehicleType
    brand := cleanVal b.brand
    model := cleanVal b.model
    fuelType := cleanVal b.fuelType
    batteryBrand := cleanVal b.batteryBrand
    series := cleanVal b.series
    itemCode := cleanVal b.itemCode
    batteryModel := cleanVal b.batteryModel
    batteryTitle := cleanVal b.batteryTitle
    dimensions := cleanVal b.dimensions
    voltage := cleanVal b.voltage
    ampereHour := cleanVal b.ampereHour
    cca := cleanVal b.cca
    totalWarranty := cleanVal b.totalWarranty
    freeWarranty := cleanVal b.freeWarranty
    proRataWarranty := cleanVal b.proRataWarranty
    terminalLayoutImageUrl := cleanVal b.terminalLayoutImageUrl
    countryOfOrigin := cleanVal b.countryOfOrigin
    basePrice := cleanVal b.basePrice
    specialDiscount := cleanVal b.specialDiscount
    totalPrice := cleanVal b.totalPrice
    rebate := cleanVal b.rebate
    productDimensions := cleanVal b.productDimensions }

/-- The acceptance test `hasValidData` (lines 600-605). -/
def hasValidData (b : Battery) : Bool :=
  b.voltage ≠ [] || b.ampereHour ≠ [] || b.totalWarranty ≠ [] ||
    b.itemCode ≠ [] || b.batteryTitle ≠ [] || b.dimensions ≠ []

/-- The body of the `page.evaluate` callback. When the rebate field comes
back empty from the table, line 538 reads the undeclared variable
`priceText`, which raises a `ReferenceError` in the page context; this is
modelled as the `Except.error` branch. -/
def extractBatteryDataCore (page : Page) (combo : Combination) :
    Except Str (List Battery) :=
  if hasBatteryMarkers page then
    let b := batteryAfterPrices page combo
    if b.rebate = [] then Except.error (str "priceText is not defined")
    else
      let b := setTerminal page b
      let b := synthModel b
      let b := synthTitle b
      let cleaned := cleanBattery b
      Except.ok (if hasValidData cleaned then [cleaned] else [])
  else Except.ok []

/-- `extractBatteryData`: the try/catch at lines 617-620 turns any
exception from the evaluate callback into an empty result. -/
def extractBatteryData (page : Page) (combo : Combination) : List Battery :=
  match extractBatteryDataCore page combo with
  | Except.ok batteries => batteries
  | Except.error _ => []

/-! ### Deduplicator (`createBatteryIdentifier`, `deduplicateBatteries`) -/

/-- Field normalization inside `createBatteryIdentifier` (lines 663-668):
lowercase, collapse whitespace runs to one space, trim, strip every
character outside `[\w\s]`. -/
def normalizeField (f : Str) : Str :=
  (trimStr (collapseRuns isWsC ' ' (toLowerStr f))).filter
    (fun c => isWordC c || isWsC c)

/-- JS `Array.prototype.join('_')`. -/
def joinUnderscore : List Str → Str
  | [] => []
  | [x] => x
  | x :: xs => x ++ '_' :: joinUnderscore xs

/-- `createBatteryIdentifier` (lines 649-677): normalize the eight key
fields; when the item code is truthy and its trim is truthy, the key is
`itemcode_` plus the normalized code, otherwise the nonempty normalized
fields joined by underscores. -/
def createBatteryIdentifier (b : Battery) : Str :=
  let keyFields : List Str :=
    [b.itemCode, b.batteryTitle, b.voltage, b.ampereHour, b.dimensions,
     b.vehicleType, b.brand, b.model]
  let normalizedFields := keyFields.map normalizeField
  if b.itemCode ≠ [] ∧ trimStr b.itemCode ≠ [] then
    str "itemcode_" ++ normalizedFields.headD []
  else joinUnderscore (normalizedFields.filter (fun f => f ≠ []))

/-- `deduplicateBatteries` (lines 626-644): drop a battery when its key is
already in the scraper's seen-set, otherwise keep it and add the key; the
updated seen-set is returned alongside the kept batteries. -/
def deduplicateBatteries (seen : List Str) :
    List Battery → List Battery × List Str
  | [] => ([], seen)
  | b :: bs =>
    let id := createBatteryIdentifier b
    if id ∈ seen then deduplicateBatteries seen bs
    else
      let rest := deduplicateBatteries (id :: seen) bs
      (b :: rest.1, rest.2)

/-- A whole run: `deduplicateBatteries` is called once per page visit, all
calls sharing the scraper instance's seen-set (constructor line 20). -/
def runDedupe (seen : List Str) :
    List (List Battery) → List (List Battery) × List Str
  | [] => ([], seen)
  | batch :: batches =>
    let first := deduplicateBatteries seen batch
    let rest := runDedupe first.2 batches
    (first.1 :: rest.1, rest.2)

/-- Modelled from the spec (claim C2's wording, for comparison with the
code): a record is kept exactly when its identity key differs from the key
of every record processed earlier in the stream, in original order. -/
def specFirstOcc (earlier : List Battery) : List Battery → List Battery
  | [] => []
  | b :: bs =>
    if ∀ e ∈ earlier, createBatteryIdentifier e ≠ createBatteryIdentifier b
    then b :: specFirstOcc (earlier ++ [b]) bs
    else specFirstOcc (earlier ++ [b]) bs

/-! ### Combination discoverer (`discoverValidCombinations`, lines 122-230)

The discoverer drives a live dependent-dropdown form; here the form is a
mock in which every selection succeeds and each option read is a function
of the currently selected values — exactly the interface the code uses
through `getDropdownOptions`/`selectDropdownOption`. -/

/-- A dropdown option `{value, text}`. -/
structure DropOpt where
  value : Str
  text : Str
deriving DecidableEq

/-- A mock dependent-dropdown form: option lists for each level, keyed by
the selected values of the levels above. -/
structure MockForm where
  vehicles : List DropOpt
  brands : Str → List DropOpt
  models : Str → Str → List DropOpt
  fuels : Str → Str → Str → List DropOpt

/-- Observable page interactions of the discoverer: a navigation to the
landing page, or a dropdown selection at level 1, 2 or 3. -/
inductive DiscEv where
  | landing : DiscEv
  | selVehicle : Str → DiscEv
  | selBrand : Str → DiscEv
  | selModel : Str → DiscEv
deriving DecidableEq

/-- The level-3 loop body (lines 167-193): select the model, read the fuel
options, and record one combination per fuel option. -/
def modelStep (f : MockForm) (vt b : DropOpt)
    (acc : List Combination × List DiscEv) (m : DropOpt) :
    List Combination × List DiscEv :=
  let evs := acc.2 ++ [DiscEv.selModel m.value]
  let fus := f.fuels vt.value b.value m.value
  (acc.1 ++ fus.map (fun fu => Combination.mk vt.text b.text m.text fu.text),
   evs)

/-- The level-2 loop body (lines 151-204): select the brand, run the model
loop, then navigate back to the landing page and re-select the vehicle
type for the next brand. -/
def brandStep (f : MockForm) (vt : DropOpt)
    (acc : List Combination × List DiscEv) (b : DropOpt) :
    List Combination × List DiscEv :=
  let acc1 := (acc.1, acc.2 ++ [DiscEv.selBrand b.value])
  let acc2 := (f.models vt.value b.value).foldl (modelStep f vt b) acc1
  (acc2.1, acc2.2 ++ [DiscEv.landing, DiscEv.selVehicle vt.value])

/-- The level-1 loop body (lines 135-205): select the vehicle type and run
the brand loop. -/
def vehicleStep (f : MockForm) (acc : List Combination × List DiscEv)
    (vt : DropOpt) : List Combination × List DiscEv :=
  let acc1 := (acc.1, acc.2 ++ [DiscEv.selVehicle vt.value])
  (f.brands vt.value).foldl (brandStep f vt) acc1

/-- `discoverValidCombinations` over the mock form: the initial navigation
to the landing page, then the nested loops; returns the discovered
combinations and the interaction trace. -/
def discoverValidCombinations (f : MockForm) :
    List Combination × List DiscEv :=
  f.vehicles.foldl (vehicleStep f) ([], [DiscEv.landing])

/-- Modelled from the spec (claim C7's wording): between any two model
selections the discoverer returns to the landing state; the flag records
whether a model has been selected since the last landing. -/
def modelsSinceLanding : Bool → List DiscEv → Bool
  | _, [] => true
  | _, DiscEv.landing :: t => modelsSinceLanding false t
  | sawModel, DiscEv.selModel _ :: t =>
    if sawModel then false else modelsSinceLanding true t
  | sawModel, _ :: t => modelsSinceLanding sawModel t

/-- Claim C7's reset discipline as a predicate on interaction traces. -/
def resetBeforeNextModel (evs : List DiscEv) : Bool :=
  modelsSinceLanding false evs

/-- Number of landing-state visits in a trace. -/
def countLanding (evs : List DiscEv) : Nat :=
  evs.countP (fun e => e = DiscEv.landing)

/-! ### CSV formatter (`config.output.csvHeaders`, `CSVExporter`) -/

/-- The 21 configured CSV headers, in order (config.js 83-105). -/
def csvHeaders : List Str :=
  [str "Vehicle Type", str "Brand", str "Model", str "Fuel Type",
   str "Battery Brand", str "Series", str "Item Code", str "Battery Model",
   str "Dimensions", str "Voltage", str "Ampere Hour", str "CCA",
   str "Total Warranty", str "Free Warranty", str "Pro-rata Warranty",
   str "Terminal Layout Image URL", str "Country of Origin",
   str "Base Price", str "Special Discount", str "Total Price",
   str "Rebate"]

/-- `convertHeaderToId` (csvExporter.js): lowercase, map every character
outside `[a-z0-9]` to `_`, collapse underscore runs, trim one leading and
one trailing underscore. -/
def convertHeaderToId (h : Str) : Str :=
  dropTrail '_' (dropLead '_'
    (collapseRuns isUnderC '_'
      ((toLowerStr h).map (fun c => if isAlnumL c then c else '_'))))

/-- `sanitizeValue` (csvExporter.js): trim, collapse whitespace runs to a
single space, truncate to the configured 500-character maximum. -/
def sanitizeValue (v : Str) : Str :=
  let s := collapseRuns isWsC ' ' (trimStr v)
  if 500 < s.length then s.take 500 else s

/-- The switch in `CSVExporter.formatBatteryData` mapping one header to
the raw record field it reads; `fnum` stands for `formatNumericValue`
(whose JS float semantics is not needed by any claim and is kept
abstract as a parameter). The dead `Battery Title` case of the switch is
included: no configured header selects it. -/
def csvValueFor (fnum : Str → Str) (rawData : Battery) (h : Str) : Str :=
  if h = str "Vehicle Type" then rawData.vehicleType
  else if h = str "Brand" then rawData.brand
  else if h = str "Model" then rawData.model
  else if h = str "Fuel Type" then rawData.fuelType
  else if h = str "Battery Brand" then rawData.batteryBrand
  else if h = str "Series" then rawData.series
  else if h = str "Item Code" then rawData.itemCode
  else if h = str "Battery Model" then rawData.batteryModel
  else if h = str "Battery Title" then rawData.batteryTitle
  else if h = str "Dimensions" then rawData.dimensions
  else if h = str "Voltage" then fnum rawData.voltage
  else if h = str "Ampere Hour" then fnum rawData.ampereHour
  else if h = str "CCA" then fnum rawData.cca
  else if h = str "Total Warranty" then fnum rawData.totalWarranty
  else if h = str "Free Warranty" then fnum rawData.freeWarranty
  else if h = str "Pro-rata Warranty" then fnum rawData.proRataWarranty
  else if h = str "Terminal Layout Image URL" then
    rawData.terminalLayoutImageUrl
  else if h = str "Country of Origin" then rawData.countryOfOrigin
  else if h = str "Base Price" then rawData.basePrice
  else if h = str "Special Discount" then rawData.specialDiscount
  else if h = str "Total Price" then rawData.totalPrice
  else if h = str "Rebate" then rawData.rebate
  else []

/-- `CSVExporter.formatBatteryData`: one `(field id, sanitized value)` pair
per configured header, in header order — this is the row handed to the
CSV writer. -/
def formatBatteryData (fnum : Str → Str) (rawData : Battery) :
    List (Str × Str) :=
  csvHeaders.map (fun h =>
    (convertHeaderToId h, sanitizeValue (csvValueFor fnum rawData h)))

/-! ### Concrete fixtures used by the claim checks -/

/-- The known-good combination from the repository's tests. -/
def comboA : Combination :=
  ⟨str "Passengers", str "ASHOK LEYLAND", str "Stile", str "Diesel"⟩

/-- A page that passes the gate and carries a voltage row but no rebate
row anywhere (the rebate's direct and fallback extraction both come back
empty). -/
def pageNoRebate : Page :=
  { bodyText := str "Voltage (V) 12"
    rows := [⟨str "Voltage (V) 12", some (str "12"), none⟩]
    comparisionCells := []
    priceEls := []
    terminalImg := none }

/-- The labeled rows of end-to-end scenario B. -/
def scenarioBRows : List TableRow :=
  [⟨str "Voltage (V) 12", some (str "12"), none⟩,
   ⟨str "Ref. Amphere Hour (AH) 35", some (str "35"), none⟩]

/-- The minimal scenario-B page: the two labeled rows and nothing else. -/
def pageScenarioB : Page :=
  { bodyText := str "voltage ampere"
    rows := scenarioBRows
    comparisionCells := []
    priceEls := []
    terminalImg := none }

/-- Scenario B's page with a rebate row added, so that extraction reaches
its end. -/
def pageScenarioBRebate : Page :=
  { bodyText := str "voltage ampere"
    rows := scenarioBRows ++ [⟨str "Rebate ₹50", some (str "₹50"), none⟩]
    comparisionCells := []
    priceEls := []
    terminalImg := none }

/-- A page whose label rows yield a base price but no special discount and
no total price, and which carries one styled price-container element. -/
def pagePriceClash : Page :=
  { bodyText := str "battery"
    rows := [⟨str "Base Price ₹100", some (str "₹100"), none⟩,
             ⟨str "Size 10x10", some (str "10x10"), none⟩,
             ⟨str "Rebate ₹50", some (str "₹50"), none⟩]
    comparisionCells := []
    priceEls := [⟨str "proPriceInfo s-bold font-15", str "₹999"⟩]
    terminalImg := none }

/-- A page whose visible text contains none of the marker tokens. -/
def pageNoMarkers : Page :=
  { bodyText := str "hello world"
    rows := [⟨str "Voltage (V) 12", some (str "12"), none⟩]
    comparisionCells := []
    priceEls := []
    terminalImg := none }

/-- Scenario D's mock form: 2 categories, 2 brands each, 1 model each,
1 variant each. -/
def formScenarioD : MockForm :=
  { vehicles := [⟨str "v1", str "Cat1"⟩, ⟨str "v2", str "Cat2"⟩]
    brands := fun v =>
      if v = str "v1" then
        [⟨str "b1", str "Brand1"⟩, ⟨str "b2", str "Brand2"⟩]
      else if v = str "v2" then
        [⟨str "b3", str "Brand3"⟩, ⟨str "b4", str "Brand4"⟩]
      else []
    models := fun _ _ => [⟨str "m1", str "ModelA"⟩]
    fuels := fun _ _ _ => [⟨str "f1", str "Petrol"⟩] }

/-- A mock form with one category, one brand and two models: the form on
which the per-model reset discipline of claim C7 is visible. -/
def formTwoModels : MockForm :=
  { vehicles := [⟨str "v1", str "Cat1"⟩]
    brands := fun _ => [⟨str "b1", str "Brand1"⟩]
    models := fun _ _ => [⟨str "m1", str "M1"⟩, ⟨str "m2", str "M2"⟩]
    fuels := fun _ _ _ => [⟨str "f1", str "Petrol"⟩] }

/-- A page whose label rows give all three price tiers. -/
def pageAllPrices : Page :=
  { bodyText := str "battery"
    rows := [⟨str "Base Price ₹100", some (str "₹100"), none⟩,
             ⟨str "Special Discount ₹20", some (str "₹20"), none⟩,
             ⟨str "Total Price ₹80", some (str "₹80"), none⟩]
    comparisionCells := []
    priceEls := [⟨str "proPriceInfo s-bold font-15", str "₹999"⟩]
    terminalImg := none }

/-- A concrete extracted record, with a stable item code. -/
def sampleBattery : Battery :=
  ⟨str "Passengers", str "ASHOK LEYLAND", str "Stile", str "Diesel",
   str "Amaron", [], str "AAM-FL-1", [], str "T one", [], str "12",
   str "35", [], [], [], [], [], [], [], [], [], [], []⟩

/-- The same record with different whitespace formatting in its title. -/
def sampleBatteryWs : Battery :=
  { sampleBattery with batteryTitle := str "  T   one " }

/-! ## Lemmas: character classes -/

theorem alnumOrH_ranges (c : Char) (h : alnumOrH c = true) :
    (97 ≤ c.toNat ∧ c.toNat ≤ 122) ∨ (48 ≤ c.toNat ∧ c.toNat ≤ 57) ∨
      c.toNat = 45 := by
  simp only [alnumOrH, isAlnumL, isLowerC, isDigitC, Bool.or_eq_true,
    Bool.and_eq_true, decide_eq_true_eq] at h
  rcases h with (⟨h1, h2⟩ | ⟨h1, h2⟩) | h1
  · exact Or.inl ⟨h1, h2⟩
  · exact Or.inr (Or.inl ⟨h1, h2⟩)
  · subst h1; exact Or.inr (Or.inr rfl)

theorem alnumOrH_not_ws (c : Char) (h : alnumOrH c = true) :
    isWsC c = false := by
  have hr := alnumOrH_ranges c h
  simp only [isWsC, Bool.or_eq_false_iff, decide_eq_false_iff_not]
  omega

theorem alnumOrH_lowerChar (c : Char) (h : alnumOrH c = true) :
    lowerChar c = c := by
  have hr := alnumOrH_ranges c h
  unfold lowerChar
  rw [if_neg]
  omega

theorem alnumOrH_keep (c : Char) (h : alnumOrH c = true) :
    keepUrlC c = true := by
  simp only [alnumOrH, Bool.or_eq_true] at h
  simp only [keepUrlC, Bool.or_eq_true]
  tauto

theorem keep_not_ws_alnumOrH (c : Char) (h1 : keepUrlC c = true)
    (h2 : isWsC c = false) : alnumOrH c = true := by
  simp only [keepUrlC, Bool.or_eq_true] at h1
  simp only [alnumOrH, Bool.or_eq_true]
  rcases h1 with (ha | hw) | hh
  · exact Or.inl ha
  · rw [hw] at h2; exact absurd h2 (by simp)
  · exact Or.inr hh

theorem alnum_not_hyphen (c : Char) (h : isAlnumL c = true) :
    isHyphenC c = false := by
  simp only [isHyphenC, decide_eq_false_iff_not]
  intro he
  subst he
  exact absurd h (by decide)

theorem alnumOrH_not_hyph (c : Char) (h1 : alnumOrH c = true)
    (h2 : isHyphenC c = false) : isAlnumL c = true := by
  simp only [alnumOrH, Bool.or_eq_true] at h1
  rcases h1 with ha | hh
  · exact ha
  · simp [isHyphenC, hh] at h2

/-! ## Lemmas: run collapsing and edge trimming -/

theorem mem_collapseGo (p : Char → Bool) (r : Char) :
    ∀ (l : Str) (st : Bool) (c : Char), c ∈ collapseGo p r st l →
      c = r ∨ (c ∈ l ∧ p c = false) := by
  intro l
  induction l with
  | nil => intro st c hc; simp [collapseGo] at hc
  | cons a t ih =>
    intro st c hc
    simp only [collapseGo] at hc
    by_cases hp : p a
    · rw [if_pos hp] at hc
      cases st with
      | true =>
        simp only [if_pos rfl] at hc
        rcases ih true c hc with h | ⟨hm, hq⟩
        · exact Or.inl h
        · exact Or.inr ⟨List.mem_cons_of_mem a hm, hq⟩
      | false =>
        simp only [Bool.false_eq_true, if_neg] at hc
        rcases List.mem_cons.mp hc with h | h
        · exact Or.inl h
        · rcases ih true c h with h2 | ⟨hm, hq⟩
          · exact Or.inl h2
          · exact Or.inr ⟨List.mem_cons_of_mem a hm, hq⟩
    · rw [if_neg hp] at hc
      rcases List.mem_cons.mp hc with h | h
      · subst h
        exact Or.inr ⟨List.mem_cons_self c t, Bool.not_eq_true _ ▸ hp⟩
      · rcases ih false c h with h2 | ⟨hm, hq⟩
        · exact Or.inl h2
        · exact Or.inr ⟨List.mem_cons_of_mem a hm, hq⟩

theorem collapseGo_noAdj (p : Char → Bool) (r : Char) (hr : p r = true) :
    ∀ (l : Str) (st : Bool),
      noAdj p (collapseGo p r st l) = true ∧
        (st = true → headNotP p (collapseGo p r st l) = true) := by
  intro l
  induction l with
  | nil => intro st; simp [collapseGo, noAdj, headNotP]
  | cons a t ih =>
    intro st
    simp only [collapseGo]
    by_cases hp : p a
    · rw [if_pos hp]
      cases st with
      | true => simpa using ih true
      | false =>
        simp only [Bool.false_eq_true, if_neg]
        have h1 := (ih true).1
        have h2 := (ih true).2 rfl
        constructor
        · simp only [noAdj, h1, Bool.and_true, Bool.or_eq_true]
          exact Or.inr h2
        · intro h; exact absurd h (by simp)
    · rw [if_neg hp]
      have h1 := (ih false).1
      constructor
      · simp only [noAdj, h1, Bool.and_true, Bool.or_eq_true]
        exact Or.inl (by simp [hp])
      · intro _
        simp [headNotP, hp]

theorem collapseGo_id_of_no_p (p : Char → Bool) (r : Char) :
    ∀ l : Str, (∀ c ∈ l, p c = false) → collapseGo p r false l = l := by
  intro l
  induction l with
  | nil => intro _; simp [collapseGo]
  | cons a t ih =>
    intro h
    have ha : p a = false := h a (List.mem_cons_self a t)
    have ht := ih (fun c hc => h c (List.mem_cons_of_mem a hc))
    simp [collapseGo, ha, ht]

theorem collapseGo_id_hyphen :
    ∀ (l : Str) (st : Bool), noAdj isHyphenC l = true →
      (st = true → headNotP isHyphenC l = true) →
      collapseGo isHyphenC '-' st l = l := by
  intro l
  induction l with
  | nil => intro st _ _; simp [collapseGo]
  | cons a t ih =>
    intro st hadj hhead
    simp only [noAdj, Bool.and_eq_true, Bool.or_eq_true] at hadj
    by_cases hp : isHyphenC a
    · have hst : st = false := by
        cases st with
        | false => rfl
        | true =>
          have := hhead rfl
          simp [headNotP, hp] at this
      subst hst
      have haeq : a = '-' := by simpa [isHyphenC] using hp
      have hht : headNotP isHyphenC t = true := by
        rcases hadj.1 with h | h
        · simp [hp] at h
        · exact h
      have ht := ih true hadj.2 (fun _ => hht)
      simp only [collapseGo, hp, if_pos, if_true, Bool.false_eq_true,
        if_false, haeq, ht]
      simp [isHyphenC, ht]
    · have ht := ih false hadj.2 (by intro h; exact absurd h (by simp))
      simp [collapseGo, hp, ht]

theorem dropLead_headNot (l : Str) (hadj : noAdj isHyphenC l = true) :
    headNotP isHyphenC (dropLead '-' l) = true := by
  cases l with
  | nil => simp [dropLead, headNotP]
  | cons a t =>
    simp only [noAdj, Bool.and_eq_true, Bool.or_eq_true] at hadj
    by_cases ha : a = '-'
    · subst ha
      simp only [dropLead, if_pos rfl]
      rcases hadj.1 with h | h
      · simp [isHyphenC] at h
      · exact h
    · simp only [dropLead, if_neg ha]
      simp [headNotP, isHyphenC, ha]

theorem dropLead_noAdj (l : Str) (hadj : noAdj isHyphenC l = true) :
    noAdj isHyphenC (dropLead '-' l) = true := by
  cases l with
  | nil => simpa [dropLead] using hadj
  | cons a t =>
    simp only [noAdj, Bool.and_eq_true] at hadj
    by_cases ha : a = '-'
    · subst ha; simpa [dropLead] using hadj.2
    · simp only [dropLead, if_neg ha]
      simp only [noAdj, Bool.and_eq_true]
      exact hadj

theorem dropLead_subset (t : Char) (l : Str) (c : Char)
    (h : c ∈ dropLead t l) : c ∈ l := by
  cases l with
  | nil => simpa [dropLead] using h
  | cons a s =>
    by_cases ha : a = t
    · simp only [dropLead, if_pos ha] at h
      exact List.mem_cons_of_mem a h
    · simpa [dropLead, if_neg ha] using h

theorem dropLead_id (l : Str) (h : headNotP isHyphenC l = true) :
    dropLead '-' l = l := by
  cases l with
  | nil => rfl
  | cons a t =>
    simp only [headNotP, isHyphenC, Bool.not_eq_eq_eq_not, Bool.not_true,
      decide_eq_false_iff_not] at h
    simp [dropLead, h]

theorem dropTrail_subset (t : Char) :
    ∀ (l : Str) (c : Char), c ∈ dropTrail t l → c ∈ l
  | [], c, h => by simpa [dropTrail] using h
  | [a], c, h => by
    by_cases ha : a = t
    · simp [dropTrail, ha] at h
    · simpa [dropTrail, ha] using h
  | a :: b :: s, c, h => by
    simp only [dropTrail] at h
    rcases List.mem_cons.mp h with h1 | h1
    · exact h1 ▸ List.mem_cons_self a (b :: s)
    · exact List.mem_cons_of_mem a (dropTrail_subset t (b :: s) c h1)

theorem dropTrail_noAdj (p : Char → Bool) (t : Char) :
    ∀ l : Str, noAdj p l = true → noAdj p (dropTrail t l) = true
  | [], h => by simpa [dropTrail] using h
  | [a], h => by
    by_cases ha : a = t
    · simp [dropTrail, ha, noAdj]
    · simpa [dropTrail, ha] using h
  | a :: b :: s, h => by
    rw [noAdj, Bool.and_eq_true] at h
    rw [Bool.or_eq_true] at h
    have hrest := dropTrail_noAdj p t (b :: s) h.2
    simp only [dropTrail, noAdj, Bool.and_eq_true, Bool.or_eq_true, hrest,
      and_true]
    rcases h.1 with h1 | h1
    · exact Or.inl h1
    · cases s with
      | nil =>
        by_cases hb : b = t
        · simp [dropTrail, hb, headNotP]
        · simp only [dropTrail, if_neg hb]
          exact Or.inr h1
      | cons d s2 =>
        simp only [dropTrail]
        simp only [headNotP] at h1 ⊢
        exact Or.inr h1

theorem dropTrail_headNot (p : Char → Bool) (t : Char) (l : Str)
    (h : headNotP p l = true) : headNotP p (dropTrail t l) = true := by
  cases l with
  | nil => simp [dropTrail, headNotP]
  | cons a s =>
    cases s with
    | nil =>
      by_cases ha : a = t
      · simp [dropTrail, ha, headNotP]
      · simpa [dropTrail, ha] using h
    | cons b s2 => simpa [dropTrail, headNotP] using h

theorem dropTrail_lastAlnum :
    ∀ l : Str, (∀ c ∈ l, alnumOrH c = true) → noAdj isHyphenC l = true →
      lastAlnum (dropTrail '-' l) = true
  | [], _, _ => by simp [dropTrail, lastAlnum]
  | [a], hchar, _ => by
    by_cases ha : a = '-'
    · simp [dropTrail, ha, lastAlnum]
    · simp only [dropTrail, if_neg ha, lastAlnum]
      exact alnumOrH_not_hyph a (hchar a (by simp))
        (by simp [isHyphenC, ha])
  | a :: b :: s, hchar, hadj => by
    rw [noAdj, Bool.and_eq_true] at hadj
    rw [Bool.or_eq_true] at hadj
    have hrest := dropTrail_lastAlnum (b :: s)
      (fun c hc => hchar c (List.mem_cons_of_mem a hc)) hadj.2
    simp only [dropTrail]
    cases s with
    | nil =>
      by_cases hb : b = '-'
      · subst hb
        simp only [dropTrail, if_pos rfl, lastAlnum]
        rcases hadj.1 with h1 | h1
        · exact alnumOrH_not_hyph a (hchar a (by simp)) (by simpa using h1)
        · simp [headNotP, isHyphenC] at h1
      · simp only [dropTrail, if_neg hb, lastAlnum]
        simpa [dropTrail, hb, lastAlnum] using hrest
    | cons d s2 =>
      simp only [dropTrail] at hrest ⊢
      simpa [lastAlnum] using hrest

/-! ## Lemmas: the slug shape implies the regex -/

theorem slugRun_of_clean :
    ∀ l : Str, (∀ c ∈ l, alnumOrH c = true) → noAdj isHyphenC l = true →
      lastAlnum l = true → slugRun true l = true
  | [], _, _, _ => rfl
  | [a], hchar, _, hlast => by
    have ha : isAlnumL a = true := by simpa [lastAlnum] using hlast
    simp [slugRun, ha]
  | a :: b :: s, hchar, hadj, hlast => by
    rw [noAdj, Bool.and_eq_true] at hadj
    rw [Bool.or_eq_true] at hadj
    have hlast2 : lastAlnum (b :: s) = true := by
      simpa [lastAlnum] using hlast
    by_cases ha : isAlnumL a
    · have := slugRun_of_clean (b :: s)
        (fun c hc => hchar c (List.mem_cons_of_mem a hc)) hadj.2 hlast2
      rw [slugRun, if_pos ha]
      exact this
    · have haH : a = '-' := by
        have h1 : alnumOrH a = true := hchar a (List.mem_cons_self a _)
        simp only [alnumOrH, Bool.or_eq_true, decide_eq_true_eq] at h1
        rcases h1 with h1 | h1
        · exact absurd h1 ha
        · exact h1
      have hbAl : isAlnumL b = true := by
        have hH : headNotP isHyphenC (b :: s) = true := by
          rcases hadj.1 with h1 | h1
          · rw [haH] at h1; simp [isHyphenC] at h1
          · exact h1
        have hbh : isHyphenC b = false := by
          simpa [headNotP] using hH
        exact alnumOrH_not_hyph b
          (hchar b (List.mem_cons_of_mem a (List.mem_cons_self b s))) hbh
      have hrest : slugRun true s = true := by
        cases s with
        | nil => rfl
        | cons d s2 =>
          rw [noAdj, Bool.and_eq_true] at hadj
          have := slugRun_of_clean (d :: s2)
            (fun c hc => hchar c (List.mem_cons_of_mem a
              (List.mem_cons_of_mem b hc))) hadj.2.2
            (by simpa [lastAlnum] using hlast2)
          exact this
      subst haH
      simp [slugRun, ha, hbAl, hrest]

/-- Every character of `urlify s` is a lower-case alphanumeric or a
hyphen, no two hyphens are adjacent, and neither end is a hyphen. -/
theorem urlify_invariants (s : Str) :
    (∀ c ∈ urlify s, alnumOrH c = true) ∧
      noAdj isHyphenC (urlify s) = true ∧
      headNotP isHyphenC (urlify s) = true ∧
      lastAlnum (urlify s) = true := by
  unfold urlify
  set l1 := (toLowerStr s).filter keepUrlC with hl1
  set l2 := collapseRuns isWsC '-' l1 with hl2
  set l3 := collapseRuns isHyphenC '-' l2 with hl3
  have hchar1 : ∀ c ∈ l1, keepUrlC c = true := by
    intro c hc
    exact List.of_mem_filter hc
  have hchar2 : ∀ c ∈ l2, alnumOrH c = true := by
    intro c hc
    rcases mem_collapseGo isWsC '-' l1 false c hc with h | ⟨hm, hq⟩
    · subst h; decide
    · exact keep_not_ws_alnumOrH c (hchar1 c hm) hq
  have hchar3 : ∀ c ∈ l3, alnumOrH c = true := by
    intro c hc
    rcases mem_collapseGo isHyphenC '-' l2 false c hc with h | ⟨hm, _⟩
    · subst h; decide
    · exact hchar2 c hm
  have hadj3 : noAdj isHyphenC l3 = true :=
    (collapseGo_noAdj isHyphenC '-' (by decide) l2 false).1
  have hcharL : ∀ c ∈ dropLead '-' l3, alnumOrH c = true :=
    fun c hc => hchar3 c (dropLead_subset '-' l3 c hc)
  have hadjL : noAdj isHyphenC (dropLead '-' l3) = true :=
    dropLead_noAdj l3 hadj3
  have hheadL : headNotP isHyphenC (dropLead '-' l3) = true :=
    dropLead_headNot l3 hadj3
  refine ⟨?_, ?_, ?_, ?_⟩
  · intro c hc
    exact hcharL c (dropTrail_subset '-' (dropLead '-' l3) c hc)
  · exact dropTrail_noAdj isHyphenC '-' (dropLead '-' l3) hadjL
  · exact dropTrail_headNot isHyphenC '-' (dropLead '-' l3) hheadL
  · exact dropTrail_lastAlnum (dropLead '-' l3) hcharL hadjL

/-- The central slug property: `urlify` always produces either the empty
string or a match of `^[a-z0-9]+(-[a-z0-9]+)*$`. -/
theorem urlify_slugOk (s : Str) :
    slugOk (urlify s) = true ∨ urlify s = [] := by
  obtain ⟨hchar, hadj, hhead, hlast⟩ := urlify_invariants s
  cases hu : urlify s with
  | nil => exact Or.inr rfl
  | cons a t =>
    rw [hu] at hchar hadj hhead hlast
    left
    have haAl : isAlnumL a = true := by
      have hh : isHyphenC a = false := by simpa [headNotP] using hhead
      exact alnumOrH_not_hyph a (hchar a (List.mem_cons_self a t)) hh
    rw [noAdj, Bool.and_eq_true] at hadj
    have hlast2 : lastAlnum t = true := by
      cases t with
      | nil => rfl
      | cons d s2 => simpa [lastAlnum] using hlast
    have := slugRun_of_clean t
      (fun c hc => hchar c (List.mem_cons_of_mem a hc)) hadj.2 hlast2
    simp [slugOk, slugRun, haAl, this]

/-! ## Lemmas: `urlify` is the identity on its own output -/

theorem map_id_of_mem {f : Char → Char} :
    ∀ l : Str, (∀ c ∈ l, f c = c) → l.map f = l := by
  intro l
  induction l with
  | nil => intro _; rfl
  | cons a t ih =>
    intro h
    simp only [List.map_cons, h a (List.mem_cons_self a t),
      ih (fun c hc => h c (List.mem_cons_of_mem a hc))]

theorem filter_id_of_mem {p : Char → Bool} :
    ∀ l : Str, (∀ c ∈ l, p c = true) → l.filter p = l := by
  intro l
  induction l with
  | nil => intro _; rfl
  | cons a t ih =>
    intro h
    simp only [List.filter_cons, h a (List.mem_cons_self a t), if_true,
      ih (fun c hc => h c (List.mem_cons_of_mem a hc))]

theorem dropTrail_id_of_lastAlnum :
    ∀ l : Str, lastAlnum l = true → dropTrail '-' l = l
  | [], _ => rfl
  | [a], h => by
    have ha : isAlnumL a = true := by simpa [lastAlnum] using h
    have : a ≠ '-' := by
      intro he; subst he; exact absurd ha (by decide)
    simp [dropTrail, this]
  | a :: b :: s, h => by
    have := dropTrail_id_of_lastAlnum (b :: s) (by simpa [lastAlnum] using h)
    simp only [dropTrail, this]

theorem urlify_idem (s : Str) : urlify (urlify s) = urlify s := by
  obtain ⟨hchar, hadj, hhead, hlast⟩ := urlify_invariants s
  set u := urlify s with hu
  have h1 : toLowerStr u = u :=
    map_id_of_mem u (fun c hc => alnumOrH_lowerChar c (hchar c hc))
  have h2 : u.filter keepUrlC = u :=
    filter_id_of_mem u (fun c hc => alnumOrH_keep c (hchar c hc))
  have h3 : collapseRuns isWsC '-' u = u :=
    collapseGo_id_of_no_p isWsC '-' u
      (fun c hc => alnumOrH_not_ws c (hchar c hc))
  have h4 : collapseRuns isHyphenC '-' u = u :=
    collapseGo_id_hyphen u false hadj (by intro h; exact absurd h (by simp))
  have h5 : dropLead '-' u = u := dropLead_id u hhead
  have h6 : dropTrail '-' u = u := dropTrail_id_of_lastAlnum u hlast
  show urlify u = u
  unfold urlify
  rw [h1, h2, h3, h4, h5, h6]

/-! ## Lemmas: deduplication -/

theorem dedupe_seen_grows :
    ∀ (l : List Battery) (seen : List Str),
      seen ⊆ (deduplicateBatteries seen l).2 := by
  intro l
  induction l with
  | nil => intro seen; simp [deduplicateBatteries]
  | cons b bs ih =>
    intro seen
    simp only [deduplicateBatteries]
    by_cases hm : createBatteryIdentifier b ∈ seen
    · rw [if_pos hm]; exact ih seen
    · rw [if_neg hm]
      intro k hk
      exact ih (createBatteryIdentifier b :: seen)
        (List.mem_cons_of_mem _ hk)

theorem dedupe_sublist :
    ∀ (l : List Battery) (seen : List Str),
      ((deduplicateBatteries seen l).1).Sublist l := by
  intro l
  induction l with
  | nil => intro seen; simp [deduplicateBatteries]
  | cons b bs ih =>
    intro seen
    simp only [deduplicateBatteries]
    by_cases hm : createBatteryIdentifier b ∈ seen
    · rw [if_pos hm]
      exact (ih seen).cons b
    · rw [if_neg hm]
      exact (ih _).cons₂ b

theorem dedupe_append :
    ∀ (l1 l2 : List Battery) (seen : List Str),
      deduplicateBatteries seen (l1 ++ l2) =
        ((deduplicateBatteries seen l1).1 ++
          (deduplicateBatteries (deduplicateBatteries seen l1).2 l2).1,
         (deduplicateBatteries (deduplicateBatteries seen l1).2 l2).2) := by
  intro l1
  induction l1 with
  | nil => intro l2 seen; simp [deduplicateBatteries]
  | cons b bs ih =>
    intro l2 seen
    simp only [List.cons_append, deduplicateBatteries]
    by_cases hm : createBatteryIdentifier b ∈ seen
    · rw [if_pos hm, if_pos hm]
      exact ih l2 seen
    · rw [if_neg hm, if_neg hm]
      simp only [List.append_eq]
      rw [ih l2 (createBatteryIdentifier b :: seen)]
      simp

theorem runDedupe_join :
    ∀ (batches : List (List Battery)) (seen : List Str),
      (runDedupe seen batches).1.join =
          (deduplicateBatteries seen batches.join).1 ∧
        (runDedupe seen batches).2 =
          (deduplicateBatteries seen batches.join).2 := by
  intro batches
  induction batches with
  | nil => intro seen; simp [runDedupe, deduplicateBatteries]
  | cons batch rest ih =>
    intro seen
    simp only [runDedupe, List.join_cons]
    rw [dedupe_append batch rest.join seen]
    exact ⟨by simp [(ih _).1], (ih _).2⟩

theorem dedupe_eq_specFirstOcc :
    ∀ (l : List Battery) (seen : List Str) (earlier : List Battery),
      (∀ k, k ∈ seen ↔
        ∃ e ∈ earlier, createBatteryIdentifier e = k) →
      (deduplicateBatteries seen l).1 = specFirstOcc earlier l := by
  intro l
  induction l with
  | nil => intro seen earlier _; simp [deduplicateBatteries, specFirstOcc]
  | cons b bs ih =>
    intro seen earlier hinv
    have hext : ∀ k, k ∈ createBatteryIdentifier b :: seen ↔
        ∃ e ∈ earlier ++ [b], createBatteryIdentifier e = k := by
      intro k
      constructor
      · intro hk
        rcases List.mem_cons.mp hk with hk | hk
        · exact ⟨b, by simp, hk.symm⟩
        · obtain ⟨e, he, hke⟩ := (hinv k).mp hk
          exact ⟨e, by simp [he], hke⟩
      · rintro ⟨e, he, hke⟩
        rcases List.mem_append.mp he with he | he
        · exact List.mem_cons_of_mem _ ((hinv k).mpr ⟨e, he, hke⟩)
        · simp only [List.mem_singleton] at he
          subst he
          exact hke ▸ List.mem_cons_self _ _
    simp only [deduplicateBatteries, specFirstOcc]
    by_cases hm : createBatteryIdentifier b ∈ seen
    · rw [if_pos hm, if_neg]
      · have hsame : ∀ k, k ∈ seen ↔
            ∃ e ∈ earlier ++ [b], createBatteryIdentifier e = k := by
          intro k
          constructor
          · intro hk
            obtain ⟨e, he, hke⟩ := (hinv k).mp hk
            exact ⟨e, by simp [he], hke⟩
          · rintro ⟨e, he, hke⟩
            rcases List.mem_append.mp he with he | he
            · exact (hinv k).mpr ⟨e, he, hke⟩
            · simp only [List.mem_singleton] at he
              subst he
              exact hke ▸ hm
        exact ih seen (earlier ++ [b]) hsame
      · intro hall
        obtain ⟨e, he, hke⟩ := (hinv _).mp hm
        exact hall e he hke
    · rw [if_neg hm, if_pos]
      · rw [ih (createBatteryIdentifier b :: seen) (earlier ++ [b]) hext]
      · intro e he hke
        exact hm ((hinv _).mpr ⟨e, he, hke⟩)

/-! ## Lemmas: discoverer landing-visit counting -/

theorem countLanding_append (a b : List DiscEv) :
    countLanding (a ++ b) = countLanding a + countLanding b := by
  simp [countLanding, List.countP_append]

theorem modelsFold_count (f : MockForm) (vt b : DropOpt) :
    ∀ (ms : List DropOpt) (acc : List Combination × List DiscEv),
      countLanding ((ms.foldl (modelStep f vt b) acc).2) =
        countLanding acc.2 := by
  intro ms
  induction ms with
  | nil => intro acc; rfl
  | cons m rest ih =>
    intro acc
    rw [List.foldl_cons, ih]
    simp [modelStep, countLanding_append, countLanding, List.countP_cons]

theorem brandsFold_count (f : MockForm) (vt : DropOpt) :
    ∀ (bs : List DropOpt) (acc : List Combination × List DiscEv),
      countLanding ((bs.foldl (brandStep f vt) acc).2) =
        countLanding acc.2 + bs.length := by
  intro bs
  induction bs with
  | nil => intro acc; rfl
  | cons b rest ih =>
    intro acc
    rw [List.foldl_cons, ih]
    simp only [brandStep, countLanding_append, modelsFold_count]
    simp [countLanding, List.countP_cons, List.countP_nil]
    omega

theorem vehiclesFold_count (f : MockForm) :
    ∀ (vts : List DropOpt) (acc : List Combination × List DiscEv),
      countLanding ((vts.foldl (vehicleStep f) acc).2) =
        countLanding acc.2 +
          (vts.map (fun vt => (f.brands vt.value).length)).sum := by
  intro vts
  induction vts with
  | nil => intro acc; simp
  | cons vt rest ih =>
    intro acc
    rw [List.foldl_cons, ih]
    simp only [vehicleStep, brandsFold_count, countLanding_append]
    simp [countLanding, List.countP_cons, List.countP_nil, List.map_cons,
      List.sum_cons]
    omega

theorem discover_countLanding (f : MockForm) :
    countLanding (discoverValidCombinations f).2 =
      1 + (f.vehicles.map (fun vt => (f.brands vt.value).length)).sum := by
  unfold discoverValidCombinations
  rw [vehiclesFold_count]
  simp [countLanding, List.countP_cons, List.countP_nil]

/-! ## Lemmas: extractor gate and acceptance -/

theorem extract_gate_empty (page : Page) (combo : Combination)
    (h : hasBatteryMarkers page = false) :
    extractBatteryData page combo = [] := by
  unfold extractBatteryData extractBatteryDataCore
  rw [h]
  simp

theorem extractCore_valid (page : Page) (combo : Combination)
    (l : List Battery) (h : extractBatteryDataCore page combo = Except.ok l) :
    ∀ b ∈ l, hasValidData b = true := by
  intro b hb
  simp only [extractBatteryDataCore] at h
  split at h
  · split at h
    · exact absurd h (by simp)
    · simp only [Except.ok.injEq] at h
      subst h
      split at hb
      case isTrue hv =>
        simp only [List.mem_singleton] at hb
        subst hb
        exact hv
      case isFalse => simp at hb
  · simp only [Except.ok.injEq] at h
    subst h
    simp at hb

/-! ## Claim theorems -/

/-- C1: the claim says a field whose direct and fallback extraction both
come back empty (the rebate in particular) defaults to the empty string
and extraction still emits the record.  The code instead reads the
undeclared variable `priceText` at smartUrlScraper.js line 538 whenever
the rebate's table extraction is empty; the resulting `ReferenceError` is
caught at line 617 and the extractor returns no records.  This theorem
evaluates the code at the failing input: a gated page with an extractable
voltage row and no rebate anywhere. -/
theorem c1_missing_rebate_aborts_extraction :
    hasBatteryMarkers pageNoRebate = true ∧
      extractTableData pageNoRebate.rows voltageLabels = str "12" ∧
      extractTableData pageNoRebate.rows rebateLabels = [] ∧
      extractBatteryDataCore pageNoRebate comboA =
        Except.error (str "priceText is not defined") ∧
      extractBatteryData pageNoRebate comboA = [] :=
  ⟨rfl, rfl, rfl, rfl, rfl⟩

/-- C5: on the minimal scenario-B page (a `Voltage (V)` row with value
`12`, a `Ref. Amphere Hour (AH)` row with value `35`, no model-code
field), the rebate is also absent, so the `priceText` bug aborts
extraction and no record is emitted — the claimed Record with
`voltage="12"`, `ampereHour="35"`, `batteryModel="12V 35AH"` only appears
once a rebate row is added so that line 538 is not reached. -/
theorem c5_scenario_b_lost_to_rebate_bug :
    extractBatteryData pageScenarioB comboA = [] ∧
      (extractBatteryData pageScenarioBRebate comboA).map
          (fun b => (b.voltage, b.ampereHour, b.batteryModel)) =
        [(str "12", str "35", str "12V 35AH")] :=
  ⟨rfl, rfl⟩

/-- C4: (1) when the page's visible text contains none of the marker
tokens, `extractBatteryData` returns the empty sequence for every
combination; (2) every emitted record has at least one substantive field
(voltage, ampere-hour, total warranty, item code, title, dimensions)
non-empty. -/
theorem c4_gate_and_acceptance :
    (∀ (page : Page) (combo : Combination), hasBatteryMarkers page = false →
      extractBatteryData page combo = []) ∧
    (∀ (page : Page) (combo : Combination) (b : Battery),
      b ∈ extractBatteryData page combo → hasValidData b = true) := by
  refine ⟨extract_gate_empty, ?_⟩
  intro page combo b hb
  unfold extractBatteryData at hb
  cases h : extractBatteryDataCore page combo with
  | ok l =>
    rw [h] at hb
    exact extractCore_valid page combo l h b hb
  | error e =>
    rw [h] at hb
    simp at hb

/-- Witness for C4 at concrete inputs. -/
theorem c4_gate_and_acceptance_witness :
    extractBatteryData pageNoMarkers comboA = [] :=
  c4_gate_and_acceptance.1 pageNoMarkers comboA (by decide)

/-- C9: the slug transform of `generateBatteryPageUrl` is idempotent. -/
theorem c9_slug_idempotent (s : Str) : urlify (urlify s) = urlify s :=
  urlify_idem s

/-- C3: `generateBatteryPageUrl` is total and deterministic (it is a Lean
function), concatenates the four slugs in input order under the fixed
base, every segment of an input made of letters, digits, spaces and
hyphens matches `^[a-z0-9]+(-[a-z0-9]+)*$` or is empty, and the
scenario-A inputs produce `passengers/ashok-leyland/stile/diesel`. -/
theorem c3_url_builder (vt br mo fu : Str)
    (h1 : ∀ c ∈ vt, allowedUrlInput c = true)
    (h2 : ∀ c ∈ br, allowedUrlInput c = true)
    (h3 : ∀ c ∈ mo, allowedUrlInput c = true)
    (h4 : ∀ c ∈ fu, allowedUrlInput c = true) :
    generateBatteryPageUrl vt br mo fu =
        str "https://www.amaron.com/battery/" ++ urlify vt ++ str "/" ++
          urlify br ++ str "/" ++ urlify mo ++ str "/" ++ urlify fu ∧
      (slugOk (urlify vt) = true ∨ urlify vt = []) ∧
      (slugOk (urlify br) = true ∨ urlify br = []) ∧
      (slugOk (urlify mo) = true ∨ urlify mo = []) ∧
      (slugOk (urlify fu) = true ∨ urlify fu = []) ∧
      generateBatteryPageUrl (str "Passengers") (str "ASHOK LEYLAND")
          (str "Stile") (str "Diesel") =
        str "https://www.amaron.com/battery/passengers/ashok-leyland/stile/diesel" :=
  ⟨rfl, urlify_slugOk vt, urlify_slugOk br, urlify_slugOk mo,
    urlify_slugOk fu, by decide⟩

/-- Witness for C3 at the scenario-A inputs. -/
theorem c3_url_builder_witness :
    (∀ c ∈ str "Passengers", allowedUrlInput c = true) ∧
      (slugOk (urlify (str "Passengers")) = true ∨
        urlify (str "Passengers") = []) :=
  ⟨by decide,
    (c3_url_builder (str "Passengers") (str "ASHOK LEYLAND") (str "Stile")
      (str "Diesel") (by decide) (by decide) (by decide) (by decide)).2.1⟩

/-- C2: over a whole run starting from the constructor's empty seen-set,
the records kept across all batches are exactly those whose identity key
differs from the key of every record processed earlier (in the same batch
or any previous one), in original relative order (the kept stream is a
sublist of the input stream), and each call only grows the seen-set. -/
theorem c2_dedupe_run (batches : List (List Battery)) :
    (runDedupe [] batches).1.join = specFirstOcc [] batches.join ∧
      ((runDedupe [] batches).1.join).Sublist batches.join ∧
      ∀ (seen : List Str) (batch : List Battery),
        seen ⊆ (deduplicateBatteries seen batch).2 := by
  refine ⟨?_, ?_, fun seen batch => dedupe_seen_grows batch seen⟩
  · rw [(runDedupe_join batches []).1]
    exact dedupe_eq_specFirstOcc batches.join [] [] (by simp)
  · rw [(runDedupe_join batches []).1]
    exact dedupe_sublist batches.join []

/-- Witness for C2 at a concrete two-batch run carrying a duplicate. -/
theorem c2_dedupe_run_witness :
    (runDedupe [] [[sampleBattery], [sampleBatteryWs]]).1.join =
        specFirstOcc [] [[sampleBattery], [sampleBatteryWs]].join ∧
      [str "k"] ⊆ (deduplicateBatteries [str "k"] [sampleBattery]).2 :=
  ⟨(c2_dedupe_run [[sampleBattery], [sampleBatteryWs]]).1,
    (c2_dedupe_run []).2.2 [str "k"] [sampleBattery]⟩

/-- C8: two records carrying the same non-empty item code get the same
identity key, whatever their other fields hold — the key depends only on
the normalized code whenever the code is present and non-empty. -/
theorem c8_identifier_depends_only_on_code (b1 b2 : Battery)
    (hcode : b1.itemCode = b2.itemCode) (hne : b1.itemCode ≠ [])
    (htrim : trimStr b1.itemCode ≠ []) :
    createBatteryIdentifier b1 = createBatteryIdentifier b2 := by
  simp only [createBatteryIdentifier, List.map_cons, List.headD_cons]
  rw [if_pos ⟨hne, htrim⟩, if_pos ⟨hcode ▸ hne, hcode ▸ htrim⟩, hcode]

/-- Witness for C8: same item code, differently spaced titles. -/
theorem c8_identifier_witness :
    createBatteryIdentifier sampleBattery =
      createBatteryIdentifier sampleBatteryWs :=
  c8_identifier_depends_only_on_code sampleBattery sampleBatteryWs rfl
    (by decide) (by decide)

/-- C6 fails on the code: on `pagePriceClash` the label rows give
`basePrice = "₹100"`, the special discount and the total price are
missing, so the `.proPriceInfo` fallback runs — and it overwrites the
already-extracted base price with `"₹999"` taken from the styled
container element. -/
theorem c6_counterexample_price_overwritten :
    extractTableData pagePriceClash.rows basePriceLabels = str "₹100" ∧
      (extractBatteryData pagePriceClash comboA).map
          (fun b => b.basePrice) = [str "₹999"] :=
  ⟨rfl, rfl⟩

/-- C6 amended: the price-container fallback is skipped (and label-row
values kept) only when all three tiers were found by label-row
extraction; when at least one tier is missing the scan runs and may
replace already-extracted tiers. -/
theorem c6_amended_fallback_skipped_when_all_tiers_present
    (page : Page) (combo : Combination)
    (h1 : extractTableData page.rows basePriceLabels ≠ [])
    (h2 : extractTableData page.rows specialDiscountLabels ≠ [])
    (h3 : extractTableData page.rows totalPriceLabels ≠ []) :
    (batteryAfterPrices page combo).basePrice =
        extractTableData page.rows basePriceLabels ∧
      (batteryAfterPrices page combo).specialDiscount =
        extractTableData page.rows specialDiscountLabels ∧
      (batteryAfterPrices page combo).totalPrice =
        extractTableData page.rows totalPriceLabels := by
  simp only [batteryAfterPrices]
  split
  case isTrue h =>
    exfalso
    simp only [Bool.or_eq_true, decide_eq_true_eq] at h
    rcases h with (h | h) | h
    · exact h1 h
    · exact h2 h
    · exact h3 h
  case isFalse h => exact ⟨rfl, rfl, rfl⟩

/-- Witness for the amended C6 at a page carrying all three tiers. -/
theorem c6_amended_witness :
    (batteryAfterPrices pageAllPrices comboA).basePrice =
        extractTableData pageAllPrices.rows basePriceLabels ∧
      (batteryAfterPrices pageAllPrices comboA).specialDiscount =
        extractTableData pageAllPrices.rows specialDiscountLabels ∧
      (batteryAfterPrices pageAllPrices comboA).totalPrice =
        extractTableData pageAllPrices.rows totalPriceLabels :=
  c6_amended_fallback_skipped_when_all_tiers_present pageAllPrices comboA
    (by decide) (by decide) (by decide)

/-- C7 fails on the code: on a form with one brand and two models the
discoverer selects the second model without returning to the landing
state first (the reset happens per brand, not per model), while still
yielding both combinations. -/
theorem c7_counterexample_no_reset_between_models :
    resetBeforeNextModel (discoverValidCombinations formTwoModels).2 =
        false ∧
      (discoverValidCombinations formTwoModels).1.length = 2 :=
  ⟨rfl, rfl⟩

/-- C7 amended: the discoverer resets to the landing state once per
category×brand pair, after exhausting all models of that brand; on the
scenario-D mock form it yields exactly the four combinations and visits
the landing state five times: the initial navigation plus one reset per
category×brand pair. -/
theorem c7_amended_reset_once_per_brand :
    (∀ f : MockForm, countLanding (discoverValidCombinations f).2 =
        1 + (f.vehicles.map (fun vt => (f.brands vt.value).length)).sum) ∧
      (discoverValidCombinations formScenarioD).1 =
        [⟨str "Cat1", str "Brand1", str "ModelA", str "Petrol"⟩,
         ⟨str "Cat1", str "Brand2", str "ModelA", str "Petrol"⟩,
         ⟨str "Cat2", str "Brand3", str "ModelA", str "Petrol"⟩,
         ⟨str "Cat2", str "Brand4", str "ModelA", str "Petrol"⟩] ∧
      countLanding (discoverValidCombinations formScenarioD).2 = 5 :=
  ⟨discover_countLanding, rfl, rfl⟩

/-- C10: the CSV row built for any record has exactly the 21 configured
columns, in order, with the configured header ids and no others; the
extracted `batteryTitle` field never influences the row (its switch case
is dead because `Battery Title` is not among the configured headers). -/
theorem c10_csv_row_exactly_configured_columns (fnum : Str → Str)
    (raw : Battery) (t : Str) :
    (formatBatteryData fnum raw).length = 21 ∧
      (formatBatteryData fnum raw).map Prod.fst =
        csvHeaders.map convertHeaderToId ∧
      formatBatteryData fnum { raw with batteryTitle := t } =
        formatBatteryData fnum raw ∧
      str "Battery Title" ∉ csvHeaders :=
  ⟨rfl, rfl, rfl, by decide⟩

end AmaronScraper
